import Mathlib

/-!
# Verification of the pico proving-service client pipeline

Shallow embedding of the two binaries of the repository:

* `src/bin/test_reth_prove.rs` — the online pipeline: subscribe to block
  headers, filter by a configured interval, acquire the execution input for
  each selected block, encode it through the emulator stdin builder, and
  submit a `ProveTask` (optionally followed by an `EstimateCost`) to the
  remote proving service.
* `src/bin/normalize_reth_inputs.rs` — the offline converter: read one
  execution-input artifact from a file, encode it through the same builder,
  and write the bytes to an output file.

External collaborators (the chain provider, the block executor, the gRPC
channel, filesystem handles) are modelled as explicit function parameters
returning `Except`; the orchestration logic itself is translated from the
source. Bytes are `Nat`s, byte sequences are `List Nat`.
-/

namespace PicoProving

/-! ## Rust `%` on unsigned integers

In Rust, `n % d` on `u64` panics when `d = 0`.  We model this with an
`Option`: `none` is the panic. -/

/-- Rust remainder on unsigned integers: `none` models the divide-by-zero
panic. -/
def rustMod (n d : Nat) : Option Nat :=
  if d = 0 then none else some (n % d)

/-! ## Bincode framing of the stdin builder

`EmulatorStdinBuilder` (pico_vm crate, external to `src/`) is, per the spec,
an ordered write-builder: each typed write appends the bincode serialization
of the written value; serializing the builder produces bincode's encoding of
the ordered list of written byte buffers (a `u64` little-endian count
followed by, for each buffer, a `u64` little-endian length and the raw
bytes). -/

/-- Little-endian 8-byte (u64) encoding of a natural number, as bincode
emits for lengths. -/
def u64le (n : Nat) : List Nat :=
  [n % 256, n / 256 % 256, n / 256 ^ 2 % 256, n / 256 ^ 3 % 256,
   n / 256 ^ 4 % 256, n / 256 ^ 5 % 256, n / 256 ^ 6 % 256, n / 256 ^ 7 % 256]

/-- Read a little-endian u64 from the front of a byte stream. -/
def readU64 : List Nat → Option (Nat × List Nat)
  | b0 :: b1 :: b2 :: b3 :: b4 :: b5 :: b6 :: b7 :: rest =>
      some (b0 + 256 * b1 + 256 ^ 2 * b2 + 256 ^ 3 * b3 + 256 ^ 4 * b4
              + 256 ^ 5 * b5 + 256 ^ 6 * b6 + 256 ^ 7 * b7, rest)
  | _ => none

/-- Read one length-prefixed byte buffer from the front of a byte stream. -/
def readVec (bs : List Nat) : Option (List Nat × List Nat) :=
  match readU64 bs with
  | none => none
  | some (k, rest) =>
      if k ≤ rest.length then some (rest.take k, rest.drop k) else none

/-- Read `count` length-prefixed byte buffers from the front of a byte
stream. -/
def readVecs : Nat → List Nat → Option (List (List Nat) × List Nat)
  | 0, bs => some ([], bs)
  | k + 1, bs =>
      match readVec bs with
      | none => none
      | some (v, rest) =>
          match readVecs k rest with
          | none => none
          | some (vs, rest2) => some (v :: vs, rest2)

/-- Modelled from the spec: the proving machine's stdin write-builder
(`EmulatorStdinBuilder` of the external pico_vm crate) holds the ordered
list of byte buffers produced by its typed writes. -/
structure StdinBuilder where
  inputs : List (List Nat)
deriving Repr, DecidableEq

/-- Modelled from the spec: `EmulatorStdinBuilder::default()` — the fresh,
empty builder used by the online pipeline (test_reth_prove.rs line 140). -/
def StdinBuilder.default : StdinBuilder := ⟨[]⟩

/-- Modelled from the spec: `EmulatorStdin::new_builder()` — the fresh,
empty builder used by the offline converter (normalize_reth_inputs.rs
line 35). -/
def StdinBuilder.newBuilder : StdinBuilder := ⟨[]⟩

/-- Modelled from the spec: `builder.write(&x)` — a typed write appends the
serialization of the written value to the builder's ordered buffer list.
`enc` is the external bincode serialization of the written type. -/
def StdinBuilder.write {α : Type} (b : StdinBuilder) (enc : α → List Nat) (x : α) :
    StdinBuilder :=
  ⟨b.inputs ++ [enc x]⟩

/-- `bincode::serialize(&stdin_builder)`: the builder's buffer list in
bincode framing — u64 count, then each buffer length-prefixed. -/
def serializeBuilder (b : StdinBuilder) : List Nat :=
  u64le b.inputs.length ++ (b.inputs.map (fun v => u64le v.length ++ v)).flatten

/-- `bincode::deserialize` of a builder: parse the count, then the buffers,
consuming the whole byte stream. -/
def decodeBuilder (bs : List Nat) : Option StdinBuilder :=
  match readU64 bs with
  | none => none
  | some (k, rest) =>
      match readVecs k rest with
      | some (vs, []) => some ⟨vs⟩
      | _ => none

/-- The online pipeline's encoding step (test_reth_prove.rs lines 140–142):
fresh builder, one typed write of the client input, serialize the
builder. -/
def encodeInput {α : Type} (enc : α → List Nat) (x : α) : List Nat :=
  serializeBuilder (StdinBuilder.default.write enc x)

/-- The offline converter's encoding step (normalize_reth_inputs.rs lines
35–40): fresh builder via `new_builder`, one write of the client input,
serialize the builder into the output file. -/
def offlineEncode {α : Type} (enc : α → List Nat) (x : α) : List Nat :=
  serializeBuilder (StdinBuilder.newBuilder.write enc x)

/-! ### Round-trip lemmas for the framing -/

theorem readU64_u64le_append (n : Nat) (hn : n < 2 ^ 64) (rest : List Nat) :
    readU64 (u64le n ++ rest) = some (n, rest) := by
  simp only [u64le, List.cons_append, List.nil_append, readU64, Option.some.injEq,
    Prod.mk.injEq, and_true]
  omega

theorem readVec_frame (v rest : List Nat) (hv : v.length < 2 ^ 64) :
    readVec (u64le v.length ++ (v ++ rest)) = some (v, rest) := by
  rw [readVec, readU64_u64le_append v.length hv]
  simp

/-! ## The gRPC message types (pico_proving_service protocol) -/

/-- `ProveTaskRequest` as built at test_reth_prove.rs lines 147–152. -/
structure ProveTaskRequest where
  app_id : List Nat
  task_id : String
  inputs : Option (List Nat)
  use_gpu : Option Bool
deriving Repr, DecidableEq

/-- `EstimateCostRequest` as built at test_reth_prove.rs lines 160–163. -/
structure EstimateCostRequest where
  app_id : List Nat
  inputs : Option (List Nat)
deriving Repr, DecidableEq

/-- `ProveTaskResponse`: the embedded service-side error field read at
test_reth_prove.rs line 249. -/
structure ProveTaskResponse where
  err : Option String
deriving Repr, DecidableEq

/-- `EstimateCostResponse`: the fields read at test_reth_prove.rs
lines 232–235. -/
structure EstimateCostResponse where
  err : Option String
  cost : Nat
  pv_digest : List Nat
deriving Repr, DecidableEq

/-- `RegisterAppRequest` as built at test_reth_prove.rs line 213. -/
structure RegisterAppRequest where
  elf : List Nat
  info : Option String
deriving Repr, DecidableEq

/-- The `App` value returned by `App::new` (pico_proving_service library,
outside `src/`): an application identity. -/
structure App where
  app_id : List Nat
deriving Repr, DecidableEq

/-! ## Helper functions of test_reth_prove.rs -/

/-- `register_reth` (test_reth_prove.rs lines 206–220): read the ELF bytes,
compute the `App` locally via `App::new`, send `RegisterApp`, discard any
error of the remote call (it is only logged as a warning), and return the
locally computed `App`.  `idFn` models `App::new`'s content-derived identity
computation (library code outside `src/`; per the spec it is a deterministic
function of the program bytes); `readElf` models `fs::read(RETH_ELF_PATH)`;
`registerApp` models the remote call. -/
def register_reth (idFn : List Nat → List Nat) (readElf : Except String (List Nat))
    (registerApp : RegisterAppRequest → Except String Unit) : Except String App :=
  match readElf with
  | .error e => .error e
  | .ok elf =>
      let app : App := ⟨idFn elf⟩
      match registerApp ⟨elf, none⟩ with
      | .error _e => .ok app
      | .ok _ => .ok app

/-- `prove_task` (test_reth_prove.rs lines 240–252): a transport-level
failure of the call propagates via `?`; a successful response is logged
(including its embedded `err` field) and the function returns `Ok(())`. -/
def prove_task (call : ProveTaskRequest → Except String ProveTaskResponse)
    (request : ProveTaskRequest) : Except String Unit :=
  match call request with
  | .error e => .error e
  | .ok _res => .ok ()

/-- `estimate_cost` (test_reth_prove.rs lines 223–237): same contract as
`prove_task` — transport failures propagate, an embedded `err` in a
successful response is only logged. -/
def estimate_cost (call : EstimateCostRequest → Except String EstimateCostResponse)
    (request : EstimateCostRequest) : Except String Unit :=
  match call request with
  | .error e => .error e
  | .ok _res => .ok ()

/-- The task identifier `format!("task-block-{block_number}")` built at
test_reth_prove.rs line 149. -/
def taskId (blockNumber : Nat) : String :=
  "task-block-" ++ toString blockNumber

/-- The `ProveTaskRequest` built in the main loop (test_reth_prove.rs
lines 147–152). -/
def mkProveTaskRequest (appId : List Nat) (useGpu : Bool) (blockNumber : Nat)
    (blockInputs : List Nat) : ProveTaskRequest :=
  ⟨appId, taskId blockNumber, some blockInputs, some useGpu⟩

/-- The `EstimateCostRequest` built in the main loop (test_reth_prove.rs
lines 160–163). -/
def mkEstimateCostRequest (appId : List Nat) (blockInputs : List Nat) :
    EstimateCostRequest :=
  ⟨appId, some blockInputs⟩

/-! ## The orchestrator loop -/

/-- A block header from the subscription stream; the loop only consumes its
`number`. -/
structure Header where
  number : Nat
  hash : List Nat
  timestamp : Nat
deriving Repr, DecidableEq

/-- The external collaborators and configuration the main loop runs
against. `α` is the opaque `EthClientExecutorInput` artifact type and `enc`
its external bincode serialization. -/
structure Env (α : Type) where
  blockInterval : Nat
  useGpu : Bool
  estimateCostFlag : Bool
  appId : List Nat
  enc : α → List Nat
  waitForBlock : Nat → Except String Unit
  execute : Nat → Except String α
  proveTaskCall : ProveTaskRequest → Except String ProveTaskResponse
  estimateCostCall : EstimateCostRequest → Except String EstimateCostResponse

/-- The observable remote submissions the loop makes, annotated with the
block number of the loop iteration that made them. -/
inductive Event
  | proveTaskCalled (blockNumber : Nat) (req : ProveTaskRequest)
  | estimateCostCalled (blockNumber : Nat) (req : EstimateCostRequest)
deriving Repr, DecidableEq

/-- The block number an event was emitted for. -/
def Event.block : Event → Nat
  | .proveTaskCalled n _ => n
  | .estimateCostCalled n _ => n

/-- Outcome of the run: normal stream end, an error propagated by `?`, or a
Rust panic (division by zero in the filter). -/
inductive Outcome
  | ok
  | fail (msg : String)
  | panicked
deriving Repr, DecidableEq

/-- The body of the main loop (test_reth_prove.rs lines 126–166) for one
filtered header with number `n`: wait for the block, execute it, encode the
client input, send `ProveTask`, optionally send `EstimateCost`.  Returns
the remote calls made and `some msg` when an error aborts the run. -/
def processBlock {α : Type} (env : Env α) (n : Nat) : List Event × Option String :=
  match env.waitForBlock n with
  | .error e => ([], some ("failed to wait for block-" ++ toString n ++ ": " ++ e))
  | .ok _ =>
      match env.execute n with
      | .error e => ([], some ("failed to fetch block-" ++ toString n ++ ": " ++ e))
      | .ok clientInput =>
          let blockInputs := encodeInput env.enc clientInput
          let preq := mkProveTaskRequest env.appId env.useGpu n blockInputs
          match prove_task env.proveTaskCall preq with
          | .error e => ([.proveTaskCalled n preq], some e)
          | .ok _ =>
              if env.estimateCostFlag then
                let ereq := mkEstimateCostRequest env.appId blockInputs
                match estimate_cost env.estimateCostCall ereq with
                | .error e =>
                    ([.proveTaskCalled n preq, .estimateCostCalled n ereq], some e)
                | .ok _ =>
                    ([.proveTaskCalled n preq, .estimateCostCalled n ereq], none)
              else ([.proveTaskCalled n preq], none)

/-- The main loop (test_reth_prove.rs lines 119–167) over the headers the
subscription delivers: each header passes the stream filter
`header.number % cli.block_interval == 0` (Rust `%`: panics when the
interval is 0), and every selected header is processed to completion before
the next is considered; any error ends the run. -/
def runLoop {α : Type} (env : Env α) : List Header → List Event × Outcome
  | [] => ([], Outcome.ok)
  | h :: rest =>
      match rustMod h.number env.blockInterval with
      | none => ([], Outcome.panicked)
      | some r =>
          if r = 0 then
            let p := processBlock env h.number
            match p.2 with
            | some e => (p.1, Outcome.fail e)
            | none =>
                let t := runLoop env rest
                (p.1 ++ t.1, t.2)
          else runLoop env rest

/-- The blocks for which a pipeline run was triggered (a `ProveTask`
submission made), in order. -/
def triggeredBlocks {α : Type} (env : Env α) (headers : List Header) : List Nat :=
  (runLoop env headers).1.filterMap fun ev =>
    match ev with
    | .proveTaskCalled n _ => some n
    | .estimateCostCalled _ _ => none

/-- The stream filter of test_reth_prove.rs line 122: a header is forwarded
iff `header.number % cli.block_interval == 0` evaluates to true (`rustMod`
is `none` on the divide-by-zero panic). -/
def headerForwarded (interval : Nat) (h : Header) : Prop :=
  rustMod h.number interval = some 0

instance (interval : Nat) (h : Header) : Decidable (headerForwarded interval h) := by
  unfold headerForwarded
  infer_instance

/-- Execution-input acquisition (wait_for_block or execute) fails for block
`n` in environment `env`. -/
def acquisitionFails {α : Type} (env : Env α) (n : Nat) : Prop :=
  (∃ e, env.waitForBlock n = .error e) ∨
    (env.waitForBlock n = .ok () ∧ ∃ e, env.execute n = .error e)

/-- The CLI `block_interval` argument (test_reth_prove.rs lines 37–42):
clap parses any `u64`, with default 100; no further validation is applied
anywhere before the value reaches the stream filter. -/
def parseBlockInterval (arg : Option Nat) : Nat :=
  arg.getD 100

/-! ## The offline converter (normalize_reth_inputs.rs) -/

/-- Filesystem effects of the offline converter, in program order. -/
inductive FsEvent
  | openedInput
  | createdOutput
  | wroteOutput
deriving Repr, DecidableEq

/-- `main` of normalize_reth_inputs.rs (lines 22–43): open the input file,
bincode-deserialize the client input from it, write it into a fresh stdin
builder, create the output file, serialize the builder into it.  Each `?`
propagates the error; the trace records which filesystem effects
happened. -/
def normalizeRun {ι α : Type} (openInput : Except String ι)
    (deserializeFrom : ι → Except String α) (enc : α → List Nat)
    (createOutput : Except String Unit) (writeOutput : List Nat → Except String Unit) :
    List FsEvent × Except String Unit :=
  match openInput with
  | .error e => ([], .error e)
  | .ok f =>
      match deserializeFrom f with
      | .error e => ([.openedInput], .error e)
      | .ok clientInput =>
          let bytes := offlineEncode enc clientInput
          match createOutput with
          | .error e => ([.openedInput], .error e)
          | .ok _ =>
              match writeOutput bytes with
              | .error e => ([.openedInput, .createdOutput], .error e)
              | .ok _ => ([.openedInput, .createdOutput, .wroteOutput], .ok ())

/-! ## Loop lemmas -/

theorem processBlock_block_eq {α : Type} (env : Env α) (n : Nat) :
    ∀ ev ∈ (processBlock env n).1, ev.block = n := by
  intro ev hev
  unfold processBlock at hev
  cases hw : env.waitForBlock n with
  | error e => rw [hw] at hev; simp at hev
  | ok u =>
      rw [hw] at hev
      cases hx : env.execute n with
      | error e => rw [hx] at hev; simp at hev
      | ok ci =>
          rw [hx] at hev
          dsimp only at hev
          cases hp : prove_task env.proveTaskCall
              (mkProveTaskRequest env.appId env.useGpu n (encodeInput env.enc ci)) with
          | error e =>
              rw [hp] at hev
              simp only [List.mem_singleton] at hev
              subst hev; rfl
          | ok u2 =>
              rw [hp] at hev
              by_cases hf : env.estimateCostFlag
              · rw [if_pos hf] at hev
                cases he : estimate_cost env.estimateCostCall
                    (mkEstimateCostRequest env.appId (encodeInput env.enc ci)) with
                | error e =>
                    rw [he] at hev
                    simp only [List.mem_cons, List.mem_singleton, List.not_mem_nil,
                      or_false] at hev
                    rcases hev with rfl | rfl <;> rfl
                | ok u3 =>
                    rw [he] at hev
                    simp only [List.mem_cons, List.mem_singleton, List.not_mem_nil,
                      or_false] at hev
                    rcases hev with rfl | rfl <;> rfl
              · rw [if_neg hf] at hev
                simp only [List.mem_singleton] at hev
                subst hev; rfl

theorem acquisitionFails_processBlock {α : Type} (env : Env α) (n : Nat)
    (hacq : acquisitionFails env n) : ∃ m, processBlock env n = ([], some m) := by
  rcases hacq with ⟨e, he⟩ | ⟨hw, e, he⟩
  · exact ⟨_, by rw [processBlock, he]⟩
  · exact ⟨_, by rw [processBlock, hw, he]⟩

theorem runLoop_cons {α : Type} (env : Env α) (h : Header) (rest : List Header) :
    runLoop env (h :: rest) =
      match rustMod h.number env.blockInterval with
      | none => ([], Outcome.panicked)
      | some r =>
          if r = 0 then
            match (processBlock env h.number).2 with
            | some e => ((processBlock env h.number).1, Outcome.fail e)
            | none =>
                ((processBlock env h.number).1 ++ (runLoop env rest).1,
                  (runLoop env rest).2)
          else runLoop env rest := by
  rfl

theorem runLoop_mem_processBlock {α : Type} (env : Env α) :
    ∀ (headers : List Header) (ev : Event), ev ∈ (runLoop env headers).1 →
      ev ∈ (processBlock env ev.block).1 := by
  intro headers
  induction headers with
  | nil => intro ev hev; simp [runLoop] at hev
  | cons h rest ih =>
      intro ev hev
      rw [runLoop_cons env h rest] at hev
      cases hm : rustMod h.number env.blockInterval with
      | none => rw [hm] at hev; simp at hev
      | some r =>
          rw [hm] at hev
          dsimp only at hev
          by_cases hr : r = 0
          · rw [if_pos hr] at hev
            cases hq : (processBlock env h.number).2 with
            | some e =>
                rw [hq] at hev
                dsimp only at hev
                have hb := processBlock_block_eq env h.number ev hev
                rw [hb]; exact hev
            | none =>
                rw [hq] at hev
                dsimp only at hev
                rcases List.mem_append.mp hev with hl | hr2
                · have hb := processBlock_block_eq env h.number ev hl
                  rw [hb]; exact hl
                · exact ih ev hr2
          · rw [if_neg hr] at hev; exact ih ev hev

theorem runLoop_append_ok {α : Type} (env : Env α) :
    ∀ (xs ys : List Header), (runLoop env xs).2 = Outcome.ok →
      runLoop env (xs ++ ys)
        = ((runLoop env xs).1 ++ (runLoop env ys).1, (runLoop env ys).2) := by
  intro xs
  induction xs with
  | nil => intro ys _; simp [runLoop]
  | cons h rest ih =>
      intro ys hok
      rw [runLoop_cons env h rest] at hok
      rw [List.cons_append, runLoop_cons env h (rest ++ ys), runLoop_cons env h rest]
      cases hm : rustMod h.number env.blockInterval with
      | none => rw [hm] at hok; simp at hok
      | some r =>
          rw [hm] at hok
          dsimp only at hok ⊢
          by_cases hr : r = 0
          · simp only [if_pos hr] at hok ⊢
            cases hq : (processBlock env h.number).2 with
            | some e => rw [hq] at hok; simp at hok
            | none =>
                rw [hq] at hok
                dsimp only at hok ⊢
                rw [ih ys hok]
                dsimp only
                rw [List.append_assoc]
          · simp only [if_neg hr] at hok ⊢
            exact ih ys hok

theorem runLoop_cons_fail {α : Type} (env : Env α) (h : Header) (post : List Header)
    (m : String) (hfilt : rustMod h.number env.blockInterval = some 0)
    (hfail : processBlock env h.number = ([], some m)) :
    runLoop env (h :: post) = ([], Outcome.fail m) := by
  rw [runLoop_cons env h post, hfilt]
  dsimp only
  rw [if_pos rfl, hfail]

theorem readVec_exact (v : List Nat) (hv : v.length < 2 ^ 64) :
    readVec (u64le v.length ++ v) = some (v, []) := by
  have h := readVec_frame v [] hv
  rwa [List.append_nil] at h

theorem readVecs_one (bs : List Nat) :
    readVecs 1 bs =
      match readVec bs with
      | none => none
      | some (v, rest) =>
          match readVecs 0 rest with
          | none => none
          | some (vs, rest2) => some (v :: vs, rest2) := rfl

theorem decodeBuilder_single (v : List Nat) (hv : v.length < 2 ^ 64) :
    decodeBuilder (serializeBuilder ⟨[v]⟩) = some ⟨[v]⟩ := by
  have h1 : serializeBuilder ⟨[v]⟩ = u64le 1 ++ (u64le v.length ++ v) := by
    unfold serializeBuilder
    simp
  rw [h1]
  unfold decodeBuilder
  rw [readU64_u64le_append 1 (by norm_num)]
  dsimp only
  rw [readVecs_one, readVec_exact v hv]
  rfl

/-! ## Concrete environments for evaluation -/

/-- An environment in which every collaborator succeeds: interval 100, cost
estimation off, the execution input of block `n` being `n` itself. -/
def demoEnv : Env Nat where
  blockInterval := 100
  useGpu := false
  estimateCostFlag := false
  appId := [1]
  enc := fun n => [n % 256]
  waitForBlock := fun _ => .ok ()
  execute := fun n => .ok n
  proveTaskCall := fun _ => .ok ⟨none⟩
  estimateCostCall := fun _ => .ok ⟨none, 0, []⟩

/-- The end-to-end scenario's header sequence [98, 99, 100, 150, 200]. -/
def demoHeaders : List Header :=
  [⟨98, [], 0⟩, ⟨99, [], 0⟩, ⟨100, [], 0⟩, ⟨150, [], 0⟩, ⟨200, [], 0⟩]

/-- Like `demoEnv` but the execution step fails for block 100. -/
def failEnv : Env Nat :=
  { demoEnv with execute := fun n => if n = 100 then .error "boom" else .ok n }

/-! ## Claim theorems -/

/-- C1: Fail-fast propagation — when the loop reaches a filtered header for
block N and execution-input acquisition (wait_for_block or execute) fails
for N, the trace gains no ProveTask and no EstimateCost call for block N,
the run ends with an error, and no subsequent header is processed (the run
over `pre ++ h :: post` equals the run over `pre ++ [h]`). -/
theorem fail_fast_propagation {α : Type} (env : Env α) (pre post : List Header)
    (h : Header) (hfilt : rustMod h.number env.blockInterval = some 0)
    (hacq : acquisitionFails env h.number)
    (hpre : (runLoop env pre).2 = Outcome.ok) :
    (∃ m, runLoop env (pre ++ h :: post) = ((runLoop env pre).1, Outcome.fail m)) ∧
      (∀ req, Event.proveTaskCalled h.number req ∉ (runLoop env (pre ++ h :: post)).1) ∧
      (∀ req, Event.estimateCostCalled h.number req ∉ (runLoop env (pre ++ h :: post)).1) ∧
      runLoop env (pre ++ h :: post) = runLoop env (pre ++ [h]) := by
  obtain ⟨m, hpb⟩ := acquisitionFails_processBlock env h.number hacq
  have hcons : runLoop env (h :: post) = ([], Outcome.fail m) :=
    runLoop_cons_fail env h post m hfilt hpb
  have hcons1 : runLoop env (h :: ([] : List Header)) = ([], Outcome.fail m) :=
    runLoop_cons_fail env h [] m hfilt hpb
  refine ⟨⟨m, ?_⟩, ?_, ?_, ?_⟩
  · rw [runLoop_append_ok env pre (h :: post) hpre, hcons]
    simp
  · intro req hmem
    have hin := runLoop_mem_processBlock env (pre ++ h :: post) _ hmem
    dsimp only [Event.block] at hin
    rw [hpb] at hin
    simp at hin
  · intro req hmem
    have hin := runLoop_mem_processBlock env (pre ++ h :: post) _ hmem
    dsimp only [Event.block] at hin
    rw [hpb] at hin
    simp at hin
  · rw [runLoop_append_ok env pre (h :: post) hpre, hcons,
      runLoop_append_ok env pre (h :: []) hpre, hcons1]

theorem fail_fast_propagation_witness :
    ((∃ m, runLoop failEnv ([⟨50, [], 0⟩] ++ ⟨100, [], 0⟩ :: [⟨200, [], 0⟩])
        = ((runLoop failEnv [⟨50, [], 0⟩]).1, Outcome.fail m)) ∧
      (∀ req, Event.proveTaskCalled 100 req ∉
        (runLoop failEnv ([⟨50, [], 0⟩] ++ ⟨100, [], 0⟩ :: [⟨200, [], 0⟩])).1) ∧
      (∀ req, Event.estimateCostCalled 100 req ∉
        (runLoop failEnv ([⟨50, [], 0⟩] ++ ⟨100, [], 0⟩ :: [⟨200, [], 0⟩])).1) ∧
      runLoop failEnv ([⟨50, [], 0⟩] ++ ⟨100, [], 0⟩ :: [⟨200, [], 0⟩])
        = runLoop failEnv ([⟨50, [], 0⟩] ++ [⟨100, [], 0⟩])) :=
  fail_fast_propagation failEnv [⟨50, [], 0⟩] [⟨200, [], 0⟩] ⟨100, [], 0⟩ rfl
    (Or.inr ⟨rfl, "boom", rfl⟩) rfl

/-- C2: Filter correctness — for every configured interval > 0, a header on
the subscription stream is forwarded (triggers a pipeline run) iff its
number is divisible by the interval; and with interval 100 the header
sequence [98, 99, 100, 150, 200] triggers exactly the runs for blocks 100
and 200, in that order. -/
theorem filter_correctness (interval : Nat) (hpos : 0 < interval) (h : Header) :
    (headerForwarded interval h ↔ h.number % interval = 0) ∧
      triggeredBlocks demoEnv demoHeaders = [100, 200] := by
  constructor
  · unfold headerForwarded rustMod
    rw [if_neg (Nat.pos_iff_ne_zero.mp hpos)]
    simp
  · decide

theorem filter_correctness_witness :
    ((headerForwarded 100 ⟨100, [], 0⟩ ↔ (⟨100, [], 0⟩ : Header).number % 100 = 0) ∧
      triggeredBlocks demoEnv demoHeaders = [100, 200]) :=
  filter_correctness 100 (by decide) ⟨100, [], 0⟩

/-- C3: the claim says interval 0 is rejected at startup so the filter's
modulo is never evaluated with a zero divisor; in the code, clap accepts
`--block-interval 0` (no validation exists between parsing and the stream
filter), and the first incoming header then evaluates `number % 0`, a
divide-by-zero panic. -/
theorem interval_zero_reaches_filter :
    parseBlockInterval (some 0) = 0 ∧
      rustMod 5 (parseBlockInterval (some 0)) = none ∧
      runLoop { demoEnv with blockInterval := parseBlockInterval (some 0) }
          [⟨5, [], 0⟩] = ([], Outcome.panicked) :=
  ⟨rfl, rfl, rfl⟩

/-- C4: Round-trip — decoding the bytes produced by encoding an
ExecutionInput (fresh builder, one typed write, serialize the builder)
reconstructs a builder whose single written value is observationally equal
to the original (its stored bytes are the value's serialization, and the
external decoder recovers the value from them). -/
theorem encode_decode_roundtrip {α : Type} (enc : α → List Nat)
    (dec : List Nat → Option α) (x : α) (hdec : dec (enc x) = some x)
    (hlen : (enc x).length < 2 ^ 64) :
    decodeBuilder (encodeInput enc x) = some ⟨[enc x]⟩ ∧
      (StdinBuilder.mk [enc x]).inputs.head?.bind dec = some x := by
  constructor
  · exact decodeBuilder_single (enc x) hlen
  · simpa using hdec

theorem encode_decode_roundtrip_witness :
    (decodeBuilder (encodeInput (fun n : Nat => [n]) 7) = some ⟨[[7]]⟩ ∧
      (StdinBuilder.mk [[(7 : Nat)]]).inputs.head?.bind
        (fun l : List Nat => l.head?) = some 7) :=
  encode_decode_roundtrip (fun n : Nat => [n]) (fun l => l.head?) 7 rfl (by norm_num)

/-- C5: Encoding determinism — the encoded bytes (fresh builder, single
write, serialize) are a function of the written value's serialization
alone; two values with the same serialization (in particular, the same
value twice) encode to byte-for-byte identical output. -/
theorem encode_deterministic {α : Type} (enc : α → List Nat) (x y : α)
    (hxy : enc x = enc y) :
    encodeInput enc x = encodeInput enc y := by
  simp [encodeInput, StdinBuilder.write, hxy]

theorem encode_deterministic_witness :
    encodeInput (fun n : Nat => [n % 2]) 2 = encodeInput (fun n : Nat => [n % 2]) 4 :=
  encode_deterministic (fun n : Nat => [n % 2]) 2 4 rfl

/-- C6: Registration is non-fatal and identity-independent — the App is
computed locally from the program bytes and returned whatever the remote
RegisterApp call does (success, "already registered" failure, or any other
failure), so registering the same bytes twice never aborts the pipeline. -/
theorem register_nonfatal (idFn : List Nat → List Nat) (elf : List Nat)
    (registerApp : RegisterAppRequest → Except String Unit) :
    register_reth idFn (.ok elf) registerApp = .ok ⟨idFn elf⟩ := by
  unfold register_reth
  dsimp only
  cases registerApp ⟨elf, none⟩ <;> rfl

/-- C7: Transport failures of proveTask/estimateCost are failures of the
call itself (aborting the run under fail-fast), while an embedded error
field in a successfully returned response is only logged: the call still
returns success and, at run level, does not abort block processing. -/
theorem transport_vs_embedded_errors
    (pcall : ProveTaskRequest → Except String ProveTaskResponse)
    (ecall : EstimateCostRequest → Except String EstimateCostResponse)
    (preq : ProveTaskRequest) (ereq : EstimateCostRequest)
    (pres : ProveTaskResponse) (eres : EstimateCostResponse) (e : String) :
    (pcall preq = .ok pres → prove_task pcall preq = .ok ()) ∧
      (pcall preq = .error e → prove_task pcall preq = .error e) ∧
      (ecall ereq = .ok eres → estimate_cost ecall ereq = .ok ()) ∧
      (ecall ereq = .error e → estimate_cost ecall ereq = .error e) ∧
      (∀ (env : Env Nat) n v, env.waitForBlock n = .ok () → env.execute n = .ok v →
        (∀ q, env.proveTaskCall q = .ok ⟨some e⟩) → env.estimateCostFlag = false →
        (processBlock env n).2 = none) := by
  refine ⟨?_, ?_, ?_, ?_, ?_⟩
  · intro hc; simp [prove_task, hc]
  · intro hc; simp [prove_task, hc]
  · intro hc; simp [estimate_cost, hc]
  · intro hc; simp [estimate_cost, hc]
  · intro env n v hw hx hp hf
    unfold processBlock
    rw [hw, hx]
    dsimp only
    rw [prove_task, hp]
    dsimp only
    rw [if_neg (by simp [hf])]

theorem transport_vs_embedded_errors_witness :
    (prove_task (fun _ => .ok ⟨some "svc"⟩) ⟨[1], "t", none, none⟩ = .ok () ∧
      estimate_cost (fun _ => .error "conn") ⟨[1], none⟩ = .error "conn" ∧
      (processBlock { demoEnv with proveTaskCall := fun _ => .ok ⟨some "svc"⟩ } 100).2
        = none) :=
  ⟨(transport_vs_embedded_errors (fun _ => .ok ⟨some "svc"⟩) (fun _ => .error "conn")
      ⟨[1], "t", none, none⟩ ⟨[1], none⟩ ⟨some "svc"⟩ ⟨none, 0, []⟩ "svc").1 rfl,
    (transport_vs_embedded_errors (fun _ => .ok ⟨some "svc"⟩) (fun _ => .error "conn")
      ⟨[1], "t", none, none⟩ ⟨[1], none⟩ ⟨some "svc"⟩ ⟨none, 0, []⟩ "conn").2.2.2.1 rfl,
    (transport_vs_embedded_errors (fun _ => .ok ⟨some "svc"⟩) (fun _ => .error "conn")
      ⟨[1], "t", none, none⟩ ⟨[1], none⟩ ⟨some "svc"⟩ ⟨none, 0, []⟩ "svc").2.2.2.2
      { demoEnv with proveTaskCall := fun _ => .ok ⟨some "svc"⟩ } 100 100
      rfl rfl (fun _ => rfl) rfl⟩

/-- C8: Deterministic task identifiers — the task identifier in the
ProveTaskRequest built for block N is "task-block-N", a function of the
block number alone; submitting the same block twice (under any app id,
GPU flag, or input bytes) yields the same identifier. -/
theorem task_id_deterministic (a a' : List Nat) (g g' : Bool)
    (b b' : List Nat) (n : Nat) :
    (mkProveTaskRequest a g n b).task_id = (mkProveTaskRequest a' g' n b').task_id ∧
      (mkProveTaskRequest a g n b).task_id = "task-block-" ++ toString n :=
  ⟨rfl, rfl⟩

/-- C9: the offline converter (normalize_reth_inputs.rs lines 35–40) and the
online pipeline (test_reth_prove.rs lines 140–142) encode an ExecutionInput
identically: both write the value once into a fresh builder and
bincode-serialize the builder, producing the same bytes. -/
theorem offline_online_encode_agree {α : Type} (enc : α → List Nat) (x : α) :
    offlineEncode enc x = encodeInput enc x :=
  rfl

/-- C10: Offline conversion atomicity — if opening or deserializing the
input file fails, the converter returns that error and the output file is
never created. -/
theorem offline_input_failure_no_output {ι α : Type} (openInput : Except String ι)
    (deserializeFrom : ι → Except String α) (enc : α → List Nat)
    (createOutput : Except String Unit) (writeOutput : List Nat → Except String Unit)
    (e : String)
    (hfail : openInput = .error e ∨
      ∃ f, openInput = .ok f ∧ deserializeFrom f = .error e) :
    (normalizeRun openInput deserializeFrom enc createOutput writeOutput).2 = .error e ∧
      FsEvent.createdOutput ∉
        (normalizeRun openInput deserializeFrom enc createOutput writeOutput).1 := by
  rcases hfail with he | ⟨f, hf, hd⟩
  · constructor <;> simp [normalizeRun, he]
  · constructor <;> simp [normalizeRun, hf, hd]

theorem offline_input_failure_no_output_witness :
    ((normalizeRun (.error "nofile" : Except String Nat) (fun n : Nat => .ok n)
        (fun n => [n]) (.ok ()) (fun _ => .ok ())).2 = .error "nofile" ∧
      FsEvent.createdOutput ∉
        (normalizeRun (.error "nofile" : Except String Nat) (fun n : Nat => .ok n)
          (fun n => [n]) (.ok ()) (fun _ => .ok ())).1) :=
  offline_input_failure_no_output (.error "nofile") (fun n : Nat => .ok n)
    (fun n => [n]) (.ok ()) (fun _ => .ok ()) "nofile" (Or.inl rfl)

end PicoProving
